import Mathlib

/-
Shallow embedding of src/rolly.py, covering the pure logic that the
specification claims concern: the A1 anchor parser parse_a1_coords, the
pending-change queue and backoff state, and one tick of
sheets_commit_changes.  Characters are modelled over the ASCII fragment of
the Python regex character classes and of str.lower; strings are lists of
characters.  Time is modelled as an integer number of seconds.
-/

/-- ASCII digit class [0-9] of the regex in parse_a1_coords. -/
def isDigitCh (c : Char) : Bool := 48 ≤ c.toNat && c.toNat ≤ 57

/-- ASCII uppercase class [A-Z]. -/
def isUpperCh (c : Char) : Bool := 65 ≤ c.toNat && c.toNat ≤ 90

/-- ASCII lowercase class [a-z]. -/
def isLowerCh (c : Char) : Bool := 97 ≤ c.toNat && c.toNat ≤ 122

/-- The regex class [A-Z] under the re.I flag: any ASCII letter. -/
def isLetterCh (c : Char) : Bool := isUpperCh c || isLowerCh c

/-- The regex word class (backslash w), ASCII fragment: letter, digit or underscore. -/
def isWordCh (c : Char) : Bool := isLetterCh c || isDigitCh c || c == '_'

/-- ASCII fragment of Python str.lower, applied characterwise. -/
def lowerCh (c : Char) : Char := if isUpperCh c then Char.ofNat (c.toNat + 32) else c

/-- Python str.lower over a whole string. -/
def lowerStr (s : List Char) : List Char := s.map lowerCh

/-- needle is an initial segment of hay. -/
def leadsWith : List Char → List Char → Bool
  | [], _ => true
  | _ :: _, [] => false
  | a :: as, b :: bs => a == b && leadsWith as bs

/-- Python substring containment (the `in` operator on strings):
needle occurs contiguously somewhere in hay. -/
def substrAt (needle : List Char) : List Char → Bool
  | [] => needle.isEmpty
  | h :: t => leadsWith needle (h :: t) || substrAt needle t

/-- col_name_to_num of rolly.py: the character at distance pos from the end
contributes (ord - 64) * 26 ^ pos. -/
def colNameToNum : List Char → Int
  | [] => 0
  | c :: rest => ((c.toNat : Int) - 64) * 26 ^ rest.length + colNameToNum rest

/-- Python int() on a digit string: decimal interpretation. -/
def digitsVal : List Char → Int
  | [] => 0
  | c :: rest => ((c.toNat : Int) - 48) * 10 ^ rest.length + digitsVal rest

/-- Modelled from the spec wording of the column algorithm: letters form a
positional base-26 code where A has value 1 and Z value 26. -/
def specColBase26 : List Char → Int
  | [] => 0
  | c :: rest => (((c.toNat : Int) - 65) + 1) * 26 ^ rest.length + specColBase26 rest

/-- The two failure modes of parse_a1_coords, named after the taxonomy the
specification uses for the two ValueError raise sites. -/
inductive A1Error where
  | invalidRange
  | malformedAnchor
deriving DecidableEq

deriving instance DecidableEq for Except

/-- The part ([A-Z]+)([0-9]+) of the regex, with re.I and prefix-match
semantics: a maximal nonempty letter run, then a maximal nonempty digit run;
trailing input is ignored. -/
def parseLD (t : List Char) : Option (List Char × List Char) :=
  if (t.takeWhile isLetterCh).isEmpty || ((t.dropWhile isLetterCh).takeWhile isDigitCh).isEmpty
  then none
  else some (t.takeWhile isLetterCh, (t.dropWhile isLetterCh).takeWhile isDigitCh)

/-- The optional sheet prefix of the regex: a nonempty run of word
characters followed by the bang character, then letters and digits.  The
word run is maximal, so the branch applies exactly when the maximal word
run from the start is nonempty and stops right at a bang. -/
def sheetBranch (s : List Char) : Option (List Char × List Char) :=
  match s.dropWhile isWordCh with
  | c :: tail =>
    if c = '!' ∧ (s.takeWhile isWordCh).isEmpty = false then parseLD tail else none
  | [] => none

/-- re.match of the pattern in parse_a1_coords: the backtracking engine
prefers taking the optional sheet prefix, and falls back to matching
letters and digits from the start of the string. -/
def regexGroups (s : List Char) : Option (List Char × List Char) :=
  match sheetBranch s with
  | some g => some g
  | none => parseLD s

/-- parse_a1_coords of rolly.py: reject any string containing a colon,
then prefix-match the anchor regex and return 0-based coordinates. -/
def parse_a1_coords (a1 : List Char) : Except A1Error (Int × Int) :=
  if a1.any (fun c => c == ':') then .error .invalidRange
  else
    match regexGroups a1 with
    | some (L, D) => .ok (colNameToNum L - 1, digitsVal D - 1)
    | none => .error .malformedAnchor

/-- Modelled from the spec wording: the start of s matches LETTERS DIGITS
(at least one letter then at least one digit). -/
def ldStart (s : List Char) : Bool :=
  !(s.takeWhile isLetterCh).isEmpty &&
    (match s.dropWhile isLetterCh with
     | d :: _ => isDigitCh d
     | [] => false)

/-- Modelled from the spec wording: the start of s matches
SheetName! LETTERS DIGITS with a nonempty word-character sheet name. -/
def sheetStart (s : List Char) : Bool :=
  match s.dropWhile isWordCh with
  | c :: t => c == '!' && !(s.takeWhile isWordCh).isEmpty && ldStart t
  | [] => false

/-- Modelled from the spec wording: some prefix of s matches the
case-insensitive pattern of the anchor grammar. -/
def specPrefixMatchCI (s : List Char) : Bool := ldStart s || sheetStart s

/-- Modelled from the spec wording: the WHOLE string t is LETTERS DIGITS. -/
def fullLD (t : List Char) : Bool :=
  !(t.takeWhile isLetterCh).isEmpty &&
    !(t.dropWhile isLetterCh).isEmpty &&
    (t.dropWhile isLetterCh).all isDigitCh

/-- Modelled from the spec wording of the anchor grammar read as a full
match: the whole string is LETTERS DIGITS, optionally preceded by a
nonempty sheet name and a bang. -/
def specFullMatch (s : List Char) : Bool :=
  fullLD s ||
    (match s.dropWhile (fun c => !(c == '!')) with
     | _ :: t => !(s.takeWhile (fun c => !(c == '!'))).isEmpty && fullLD t
     | [] => false)

/-- One queued colour change: the dictionaries appended by sheet_update_user. -/
structure ChangeReq where
  name : List Char
  colour : List Char
  deriving DecidableEq

/-- One repeatCell request appended by sheets_commit_changes: a single-cell
rectangle, the hard-coded sheet id, and the background colour bytes.  The
request body carries each byte divided by 255, modelled by channelFrac. -/
structure Directive where
  startColumnIndex : Int
  endColumnIndex : Int
  startRowIndex : Int
  endRowIndex : Int
  sheetId : Nat
  red : Nat
  green : Nat
  blue : Nat
  deriving DecidableEq

/-- The byte-over-255 fraction placed in the backgroundColor field of the
request body. -/
def channelFrac (v : Nat) : ℚ := (v : ℚ) / 255

/-- One element of the valueRanges list returned by the batched read:
the range string and the fetched rows of cell texts. -/
structure ValueRange where
  range : List Char
  values : List (List (List Char))
  deriving DecidableEq

/-- The module state guarded by sheets_queue_lock: the pending-change
queue, the earliest next attempt time, and the retry counter. -/
structure SheetsState where
  queued : List ChangeReq
  nextRequestAfter : Int
  retries : Nat
  deriving DecidableEq

/-- Value of one ASCII hex digit, lowercase or uppercase. -/
def hexDigitVal (c : Char) : Option Nat :=
  if isDigitCh c then some (c.toNat - 48)
  else if 97 ≤ c.toNat && c.toNat ≤ 102 then some (c.toNat - 87)
  else if 65 ≤ c.toNat && c.toNat ≤ 70 then some (c.toNat - 55)
  else none

/-- bytes.fromhex on the colour string followed by unpacking into exactly
three bytes, as in sheets_commit_changes; anything else raises. -/
def fromHex3 (s : List Char) : Option (Nat × Nat × Nat) :=
  match s with
  | [a, b, c, d, e, f] =>
    match hexDigitVal a, hexDigitVal b, hexDigitVal c,
          hexDigitVal d, hexDigitVal e, hexDigitVal f with
    | some ha, some hb, some hc, some hd, some he, some hf =>
      some (ha * 16 + hb, hc * 16 + hd, he * 16 + hf)
    | _, _, _, _, _, _ => none
  | _ => none

/-- The match test of sheets_commit_changes: the cell text is truthy
(nonempty) and its lowercase form is a substring of the lowercase name. -/
def cellMatches (value name : List Char) : Bool :=
  !value.isEmpty && substrAt (lowerStr value) (lowerStr name)

/-- The repeatCell request built for a match at offset (x, y) inside a
range whose origin is (xo, yo). -/
def mkDirective (xo yo : Int) (x y : Nat) (r g b : Nat) : Directive :=
  { startColumnIndex := xo + x
    endColumnIndex := xo + x + 1
    startRowIndex := yo + y
    endRowIndex := yo + y + 1
    sheetId := 0
    red := r
    green := g
    blue := b }

/-- Innermost loop of sheets_commit_changes: scan the cells of one row for
one queued pair, appending a directive for every matching cell; a bad
colour string raises at the first match. -/
def scanRow (xo yo : Int) (y : Nat) (pair : ChangeReq) :
    List (List Char) → Nat → List Directive → Except Unit (List Directive)
  | [], _, acc => .ok acc
  | v :: rest, x, acc =>
    if cellMatches v pair.name then
      match fromHex3 pair.colour with
      | none => .error ()
      | some (r, g, b) =>
        scanRow xo yo y pair rest (x + 1) (acc ++ [mkDirective xo yo x y r g b])
    else scanRow xo yo y pair rest (x + 1) acc

/-- Row loop of sheets_commit_changes for one queued pair. -/
def scanRows (xo yo : Int) (pair : ChangeReq) :
    List (List (List Char)) → Nat → List Directive → Except Unit (List Directive)
  | [], _, acc => .ok acc
  | row :: rest, y, acc =>
    match scanRow xo yo y pair row 0 acc with
    | .error e => .error e
    | .ok acc2 => scanRows xo yo pair rest (y + 1) acc2

/-- Queue loop of sheets_commit_changes inside one range. -/
def scanQueue (xo yo : Int) :
    List ChangeReq → List (List (List Char)) → List Directive → Except Unit (List Directive)
  | [], _, acc => .ok acc
  | pair :: rest, rows, acc =>
    match scanRows xo yo pair rows 0 acc with
    | .error e => .error e
    | .ok acc2 => scanQueue xo yo rest rows acc2

/-- Python split on the colon then indexing the first part. -/
def takeBeforeColon (s : List Char) : List Char := s.takeWhile (fun c => !(c == ':'))

/-- Range loop of sheets_commit_changes: skip ranges with no data, parse
each remaining range's start anchor, and scan it for every queued pair.
Any exception escapes the whole loop, as in the Python try block. -/
def processRanges (queued : List ChangeReq) :
    List ValueRange → List Directive → Except Unit (List Directive)
  | [], acc => .ok acc
  | vr :: rest, acc =>
    if vr.values.isEmpty then processRanges queued rest acc
    else
      match parse_a1_coords (takeBeforeColon vr.range) with
      | .error _ => .error ()
      | .ok (xo, yo) =>
        match scanQueue xo yo queued vr.values acc with
        | .error e => .error e
        | .ok acc2 => processRanges queued rest acc2

/-- sheets_increment_retry_delay of rolly.py: bump the retry counter and
push the next attempt time out by 2 ^ min(retries, 5) seconds. -/
def sheets_increment_retry_delay (now : Int) (s : SheetsState) : SheetsState :=
  { s with
    retries := s.retries + 1
    nextRequestAfter := now + (2 : Int) ^ min (s.retries + 1) 5 }

/-- sheets_clear_retry_delay of rolly.py: reset the counter and the next
attempt time. -/
def sheets_clear_retry_delay (now : Int) (s : SheetsState) : SheetsState :=
  { s with retries := 0, nextRequestAfter := now }

/-- One tick of sheets_commit_changes.  The outcome of the batched read is
passed in as fetched, the outcome of the batched write as writeOk.  The
result is the new module state and, when a batched write was attempted,
the list of directives it carried. -/
def sheets_commit_changes (now : Int) (fetched : Except Unit (List ValueRange))
    (writeOk : Bool) (s : SheetsState) : SheetsState × Option (List Directive) :=
  if now ≤ s.nextRequestAfter ∨ s.queued = [] then (s, none)
  else
    match fetched with
    | .error _ => (sheets_increment_retry_delay now s, none)
    | .ok vrs =>
      match processRanges s.queued vrs [] with
      | .error _ => (s, none)
      | .ok reqs =>
        let s2 : SheetsState := { s with queued := [] }
        if reqs.isEmpty then (sheets_clear_retry_delay now s2, none)
        else if writeOk then (sheets_clear_retry_delay now s2, some reqs)
        else (sheets_increment_retry_delay now s2, some reqs)

/- Helper lemmas about the character classes and the regex model. -/

theorem takeWhile_append_stop (p : Char → Bool) (B : List Char)
    (hB : ∀ b, B.head? = some b → p b = false) :
    ∀ A : List Char, (∀ c ∈ A, p c = true) →
      (A ++ B).takeWhile p = A ∧ (A ++ B).dropWhile p = B := by
  intro A hA
  induction A with
  | nil =>
    simp only [List.nil_append]
    cases B with
    | nil => simp
    | cons b t =>
      have hb := hB b rfl
      constructor
      · simp [List.takeWhile, hb]
      · simp [List.dropWhile, hb]
  | cons a as ih =>
    have ha : p a = true := hA a (List.mem_cons_self a as)
    have iha : ∀ c ∈ as, p c = true := fun c hc => hA c (List.mem_cons_of_mem a hc)
    obtain ⟨h1, h2⟩ := ih iha
    constructor
    · simp [List.takeWhile, ha, h1]
    · simp [List.dropWhile, ha, h2]

theorem upper_isLetter {c : Char} (h : isUpperCh c = true) : isLetterCh c = true := by
  simp [isLetterCh, h]

theorem lower_isLetter {c : Char} (h : isLowerCh c = true) : isLetterCh c = true := by
  simp [isLetterCh, h]

theorem letter_isWord {c : Char} (h : isLetterCh c = true) : isWordCh c = true := by
  simp [isWordCh, h]

theorem digit_not_letter {c : Char} (h : isDigitCh c = true) : isLetterCh c = false := by
  simp only [isDigitCh, Bool.and_eq_true, decide_eq_true_eq] at h
  simp only [isLetterCh, isUpperCh, isLowerCh, Bool.or_eq_false_iff,
    Bool.and_eq_false_iff, decide_eq_false_iff_not]
  omega

theorem digit_isWord {c : Char} (h : isDigitCh c = true) : isWordCh c = true := by
  simp [isWordCh, h]

theorem word_ne_colon {c : Char} (h : isWordCh c = true) : (c == ':') = false := by
  cases hc : c == ':'
  · rfl
  · exact absurd (beq_iff_eq.mp hc ▸ h) (by decide)

theorem bang_not_word : isWordCh '!' = false := by decide

theorem takeWhile_all (p : Char → Bool) (A : List Char) (hA : ∀ c ∈ A, p c = true) :
    A.takeWhile p = A ∧ A.dropWhile p = A.drop A.length := by
  have := takeWhile_append_stop p [] (by intro b hb; cases hb) A hA
  simpa using this

/-- parseLD on an exact LETTERS ++ DIGITS string. -/
theorem parseLD_exact (L D : List Char) (hL : L ≠ []) (hD : D ≠ [])
    (hLa : ∀ c ∈ L, isLetterCh c = true) (hDa : ∀ c ∈ D, isDigitCh c = true) :
    parseLD (L ++ D) = some (L, D) := by
  obtain ⟨d, dt, rfl⟩ : ∃ d dt, D = d :: dt := by
    cases D with
    | nil => exact absurd rfl hD
    | cons d dt => exact ⟨d, dt, rfl⟩
  have hsplit := takeWhile_append_stop isLetterCh (d :: dt)
    (by
      intro b hb
      cases hb
      exact digit_not_letter (hDa d (List.mem_cons_self d dt)))
    L hLa
  have hDrun : (d :: dt).takeWhile isDigitCh = d :: dt :=
    (takeWhile_all isDigitCh (d :: dt) hDa).1
  simp only [parseLD, hsplit.1, hsplit.2, hDrun]
  have : L.isEmpty = false := by
    cases L with
    | nil => exact absurd rfl hL
    | cons a t => rfl
  simp [this]

/-- The regex match on an exact LETTERS ++ DIGITS string, no sheet prefix. -/
theorem regexGroups_noSheet (L D : List Char) (hL : L ≠ []) (hD : D ≠ [])
    (hLa : ∀ c ∈ L, isLetterCh c = true) (hDa : ∀ c ∈ D, isDigitCh c = true) :
    regexGroups (L ++ D) = some (L, D) := by
  have hword : ∀ c ∈ L ++ D, isWordCh c = true := by
    intro c hc
    rcases List.mem_append.mp hc with h | h
    · exact letter_isWord (hLa c h)
    · exact digit_isWord (hDa c h)
  have hdrop : (L ++ D).dropWhile isWordCh = (L ++ D).drop (L ++ D).length :=
    (takeWhile_all isWordCh (L ++ D) hword).2
  simp only [List.drop_length] at hdrop
  simp only [regexGroups, sheetBranch, hdrop]
  exact parseLD_exact L D hL hD hLa hDa

/-- The regex match with a sheet prefix: word run, bang, letters, digits. -/
theorem regexGroups_sheet (W L D : List Char) (hW : W ≠ [])
    (hWa : ∀ c ∈ W, isWordCh c = true) (hL : L ≠ []) (hD : D ≠ [])
    (hLa : ∀ c ∈ L, isLetterCh c = true) (hDa : ∀ c ∈ D, isDigitCh c = true) :
    regexGroups (W ++ '!' :: (L ++ D)) = some (L, D) := by
  have hsplit := takeWhile_append_stop isWordCh ('!' :: (L ++ D))
    (by intro b hb; cases hb; exact bang_not_word) W hWa
  have hWne : W.isEmpty = false := by
    cases W with
    | nil => exact absurd rfl hW
    | cons a t => rfl
  have hp := parseLD_exact L D hL hD hLa hDa
  simp [regexGroups, sheetBranch, hsplit.2, hsplit.1, hWne, hp]

theorem no_colon_of_word_or_digit (s : List Char)
    (h : ∀ c ∈ s, isWordCh c = true ∨ c = '!') :
    (s.any fun c => c == ':') = false := by
  rw [List.any_eq_false]
  intro c hc
  rcases h c hc with hw | hb
  · simp [word_ne_colon hw]
  · subst hb; decide

/-- parse_a1_coords on an exact LETTERS ++ DIGITS anchor, re.I letters. -/
theorem parse_ok_noSheet (L D : List Char) (hL : L ≠ []) (hD : D ≠ [])
    (hLa : ∀ c ∈ L, isLetterCh c = true) (hDa : ∀ c ∈ D, isDigitCh c = true) :
    parse_a1_coords (L ++ D) = .ok (colNameToNum L - 1, digitsVal D - 1) := by
  have hcolon : ((L ++ D).any fun c => c == ':') = false := by
    apply no_colon_of_word_or_digit
    intro c hc
    rcases List.mem_append.mp hc with h | h
    · exact Or.inl (letter_isWord (hLa c h))
    · exact Or.inl (digit_isWord (hDa c h))
  simp [parse_a1_coords, hcolon, regexGroups_noSheet L D hL hD hLa hDa]

/-- parse_a1_coords on an exact SheetName!LETTERS DIGITS anchor. -/
theorem parse_ok_sheet (W L D : List Char) (hW : W ≠ [])
    (hWa : ∀ c ∈ W, isWordCh c = true) (hL : L ≠ []) (hD : D ≠ [])
    (hLa : ∀ c ∈ L, isLetterCh c = true) (hDa : ∀ c ∈ D, isDigitCh c = true) :
    parse_a1_coords (W ++ '!' :: (L ++ D)) = .ok (colNameToNum L - 1, digitsVal D - 1) := by
  have hcolon : ((W ++ '!' :: (L ++ D)).any fun c => c == ':') = false := by
    apply no_colon_of_word_or_digit
    intro c hc
    rcases List.mem_append.mp hc with h | h
    · exact Or.inl (hWa c h)
    · rcases List.mem_cons.mp h with h | h
      · exact Or.inr h
      · rcases List.mem_append.mp h with h | h
        · exact Or.inl (letter_isWord (hLa c h))
        · exact Or.inl (digit_isWord (hDa c h))
  simp [parse_a1_coords, hcolon, regexGroups_sheet W L D hW hWa hL hD hLa hDa]

/-- The source column formula (ord minus 64) agrees everywhere with the
spec formula (letter index plus 1): pointwise the two differ by nothing. -/
theorem colNameToNum_eq_spec (L : List Char) : colNameToNum L = specColBase26 L := by
  induction L with
  | nil => rfl
  | cons c rest ih =>
    simp only [colNameToNum, specColBase26, ih]
    ring_nf

/-- Claim C6: for every valid single-cell anchor, optionally prefixed by a
sheet name and a bang, with uppercase column letters and a digit row,
parse_a1_coords returns the 0-based pair whose column is the positional
base-26 value of the letters (A = 1 ... Z = 26) minus 1 and whose row is
the decimal digit number minus 1. -/
theorem c6_parse_valid_anchors (W L D : List Char)
    (hWa : ∀ c ∈ W, isWordCh c = true) (hL : L ≠ []) (hD : D ≠ [])
    (hLa : ∀ c ∈ L, isUpperCh c = true) (hDa : ∀ c ∈ D, isDigitCh c = true) :
    parse_a1_coords (L ++ D) = .ok (specColBase26 L - 1, digitsVal D - 1) ∧
    (W ≠ [] →
      parse_a1_coords (W ++ '!' :: (L ++ D)) = .ok (specColBase26 L - 1, digitsVal D - 1)) := by
  have hLl : ∀ c ∈ L, isLetterCh c = true := fun c hc => upper_isLetter (hLa c hc)
  constructor
  · rw [parse_ok_noSheet L D hL hD hLl hDa, colNameToNum_eq_spec]
  · intro hW
    rw [parse_ok_sheet W L D hW hWa hL hD hLl hDa, colNameToNum_eq_spec]

/-- Witness for C6 at the concrete anchors AB99 and Sheet2!AB99: the
column AB is 1 * 26 + 2 - 1 = 27 and the row is 98. -/
theorem c6_witness :
    parse_a1_coords ("AB".toList ++ "99".toList) =
      .ok (specColBase26 ("AB".toList) - 1, digitsVal ("99".toList) - 1) ∧
    parse_a1_coords ("Sheet2".toList ++ '!' :: ("AB".toList ++ "99".toList)) =
      .ok (specColBase26 ("AB".toList) - 1, digitsVal ("99".toList) - 1) ∧
    specColBase26 ("AB".toList) - 1 = 27 ∧ digitsVal ("99".toList) - 1 = 98 := by
  have h := c6_parse_valid_anchors ("Sheet2".toList) ("AB".toList) ("99".toList)
    (by decide) (by decide) (by decide) (by decide) (by decide)
  exact ⟨h.1, h.2 (by decide), by decide, by decide⟩

/-- Claim C10: the regex match is case-insensitive, so lowercase column
letters are accepted rather than rejected, but the column number is still
computed from the raw character codes: a lowercase anchor a1 yields column
ord(a) - 64 - 1 = 32, not the 0 that A1 yields. -/
theorem c10_lowercase_raw_codes (L D : List Char) (hL : L ≠ []) (hD : D ≠ [])
    (hLa : ∀ c ∈ L, isLowerCh c = true) (hDa : ∀ c ∈ D, isDigitCh c = true) :
    parse_a1_coords (L ++ D) = .ok (colNameToNum L - 1, digitsVal D - 1) ∧
    parse_a1_coords ("a1".toList) = .ok (32, 0) ∧
    parse_a1_coords ("A1".toList) = .ok (0, 0) := by
  have hLl : ∀ c ∈ L, isLetterCh c = true := fun c hc => lower_isLetter (hLa c hc)
  exact ⟨parse_ok_noSheet L D hL hD hLl hDa, by decide, by decide⟩

/-- Witness for C10 at the concrete lowercase anchor a1. -/
theorem c10_witness :
    parse_a1_coords ("a".toList ++ "1".toList) =
      .ok (colNameToNum ("a".toList) - 1, digitsVal ("1".toList) - 1) ∧
    colNameToNum ("a".toList) - 1 = 32 := by
  have h := c10_lowercase_raw_codes ("a".toList) ("1".toList)
    (by decide) (by decide) (by decide) (by decide)
  exact ⟨h.1, by decide⟩

theorem parseLD_none_iff (t : List Char) : parseLD t = none ↔ ldStart t = false := by
  rw [parseLD, ldStart]
  cases hdw : t.dropWhile isLetterCh with
  | nil =>
    cases htk : (t.takeWhile isLetterCh).isEmpty <;> simp [htk]
  | cons d r =>
    cases htk : (t.takeWhile isLetterCh).isEmpty <;>
      cases hd : isDigitCh d <;>
        simp [List.takeWhile, htk, hd]

theorem sheetBranch_none_iff (s : List Char) : sheetBranch s = none ↔ sheetStart s = false := by
  rw [sheetBranch, sheetStart]
  cases hdw : s.dropWhile isWordCh with
  | nil => simp
  | cons c t =>
    by_cases hc : c = '!'
    · subst hc
      cases htk : (s.takeWhile isWordCh).isEmpty
      · simp [htk, parseLD_none_iff t]
      · simp [htk]
    · have : (c == '!') = false := by
        cases hb : c == '!'
        · rfl
        · exact absurd (beq_iff_eq.mp hb) hc
      simp [hc, this]

theorem regexGroups_none_iff (s : List Char) :
    regexGroups s = none ↔ specPrefixMatchCI s = false := by
  rw [regexGroups, specPrefixMatchCI]
  cases hsb : sheetBranch s with
  | some g =>
    have hss : sheetStart s = true := by
      cases hst : sheetStart s
      · rw [(sheetBranch_none_iff s).mpr hst] at hsb
        cases hsb
      · rfl
    simp [hss]
  | none =>
    have hss : sheetStart s = false := (sheetBranch_none_iff s).mp hsb
    simp [hss, parseLD_none_iff s]

theorem parse_no_colon (s : List Char) (h : ':' ∉ s) :
    parse_a1_coords s =
      (match regexGroups s with
       | some (L, D) => .ok (colNameToNum L - 1, digitsVal D - 1)
       | none => .error .malformedAnchor) := by
  have hc : (s.any fun c => c == ':') = false := by
    rw [List.any_eq_false]
    intro c hc
    cases hb : c == ':'
    · simp
    · exact absurd (beq_iff_eq.mp hb ▸ hc) h
  simp [parse_a1_coords, hc]

/-- Claim C9 counterexample: the input A1x does not match the full
[SheetName!]LETTERS DIGITS pattern, yet parse_a1_coords succeeds on it
(re.match only anchors at the start, so trailing input is ignored). -/
theorem c9_counterexample :
    parse_a1_coords ("A1x".toList) = .ok (0, 0) ∧
    specFullMatch ("A1x".toList) = false := ⟨by decide, by decide⟩

/-- Claim C9 amended: parse_a1_coords raises InvalidRangeError exactly on
the inputs containing a colon; on colon-free input it raises
MalformedAnchorError exactly when no PREFIX of the input matches the
case-insensitive [SheetName!]LETTERS DIGITS pattern, and succeeds on every
colon-free input that has such a prefix (trailing characters are
ignored). -/
theorem c9_error_taxonomy (s : List Char) :
    (parse_a1_coords s = .error .invalidRange ↔ ':' ∈ s) ∧
    (':' ∉ s →
      (parse_a1_coords s = .error .malformedAnchor ↔ specPrefixMatchCI s = false)) ∧
    (':' ∉ s → specPrefixMatchCI s = true → ∃ p, parse_a1_coords s = .ok p) := by
  refine ⟨⟨?_, ?_⟩, ?_, ?_⟩
  · intro h
    by_contra hmem
    rw [parse_no_colon s hmem] at h
    cases hrg : regexGroups s with
    | some g =>
      obtain ⟨L, D⟩ := g
      rw [hrg] at h
      cases h
    | none =>
      rw [hrg] at h
      cases h
  · intro hmem
    have hc : (s.any fun c => c == ':') = true := by
      rw [List.any_eq_true]
      exact ⟨':', hmem, by simp⟩
    simp [parse_a1_coords, hc]
  · intro hmem
    rw [parse_no_colon s hmem]
    cases hrg : regexGroups s with
    | some g =>
      obtain ⟨L, D⟩ := g
      have : specPrefixMatchCI s = true := by
        cases hsp : specPrefixMatchCI s
        · rw [(regexGroups_none_iff s).mpr hsp] at hrg
          cases hrg
        · rfl
      simp [this]
    | none =>
      simp [(regexGroups_none_iff s).mp hrg]
  · intro hmem hsp
    rw [parse_no_colon s hmem]
    cases hrg : regexGroups s with
    | some g =>
      obtain ⟨L, D⟩ := g
      exact ⟨(colNameToNum L - 1, digitsVal D - 1), rfl⟩
    | none =>
      rw [(regexGroups_none_iff s).mp hrg] at hsp
      cases hsp

/-- Witness for the amended C9 at the concrete anchor Sheet2!H13: no colon
is present, the prefix pattern matches, and parsing succeeds. -/
theorem c9_witness :
    (parse_a1_coords ("Sheet2!H13".toList) = .error .invalidRange ↔
      ':' ∈ ("Sheet2!H13".toList)) ∧
    (parse_a1_coords ("Sheet2!H13".toList) = .error .malformedAnchor ↔
      specPrefixMatchCI ("Sheet2!H13".toList) = false) ∧
    (∃ p, parse_a1_coords ("Sheet2!H13".toList) = .ok p) := by
  have h := c9_error_taxonomy ("Sheet2!H13".toList)
  exact ⟨h.1, h.2.1 (by decide), h.2.2 (by decide) (by decide)⟩

/-- The delay cap identity: 2 ^ min(r, 5) = min(2 ^ r, 32). -/
theorem two_pow_min_five (r : Nat) : (2 : Int) ^ min r 5 = min ((2 : Int) ^ r) 32 := by
  rcases le_total r 5 with h | h
  · rw [min_eq_left h]
    have h32 : (2 : Int) ^ r ≤ 32 := by
      calc (2 : Int) ^ r ≤ 2 ^ 5 := pow_le_pow_right (by norm_num) h
        _ = 32 := by norm_num
    rw [min_eq_left h32]
  · rw [min_eq_right h]
    have h32 : (32 : Int) ≤ 2 ^ r := by
      calc (32 : Int) = 2 ^ 5 := by norm_num
        _ ≤ 2 ^ r := pow_le_pow_right (by norm_num) h
    rw [min_eq_right h32]
    norm_num

theorem iterate_incr_retries (now : Int) (k : Nat) (s : SheetsState) :
    ((sheets_increment_retry_delay now)^[k] s).retries = s.retries + k := by
  induction k with
  | zero => simp
  | succ j ih =>
    rw [Function.iterate_succ_apply']
    simp only [sheets_increment_retry_delay, ih]
    omega

/-- Claim C7: onFailure bumps retryCount by exactly one and sets notBefore
to now plus min(2 ^ retryCount, 32) seconds; after k consecutive failures
from a reset state the delay is min(2 ^ k, 32) seconds. -/
theorem c7_backoff_growth (now : Int) (s : SheetsState) :
    (sheets_increment_retry_delay now s).retries = s.retries + 1 ∧
    (sheets_increment_retry_delay now s).nextRequestAfter
        = now + min ((2 : Int) ^ (s.retries + 1)) 32 ∧
    ∀ k : Nat, 1 ≤ k →
      ((sheets_increment_retry_delay now)^[k]
          (sheets_clear_retry_delay now s)).nextRequestAfter
        = now + min ((2 : Int) ^ k) 32 := by
  refine ⟨rfl, ?_, ?_⟩
  · show now + (2 : Int) ^ min (s.retries + 1) 5 = now + min ((2 : Int) ^ (s.retries + 1)) 32
    rw [two_pow_min_five]
  · intro k hk
    obtain ⟨j, rfl⟩ : ∃ j, k = j + 1 := ⟨k - 1, by omega⟩
    rw [Function.iterate_succ_apply']
    have hr : ((sheets_increment_retry_delay now)^[j]
        (sheets_clear_retry_delay now s)).retries = j := by
      rw [iterate_incr_retries]
      simp [sheets_clear_retry_delay]
    show now + (2 : Int) ^ min (((sheets_increment_retry_delay now)^[j]
        (sheets_clear_retry_delay now s)).retries + 1) 5 = now + min ((2 : Int) ^ (j + 1)) 32
    rw [hr, two_pow_min_five]

/-- Witness for C7 at a concrete state and k = 6 failures: the delay is
min(64, 32) = 32 seconds. -/
theorem c7_witness :
    (sheets_increment_retry_delay 0 ⟨[], 0, 0⟩).retries = 0 + 1 ∧
    ((sheets_increment_retry_delay 0)^[6]
        (sheets_clear_retry_delay 0 ⟨[], 0, 0⟩)).nextRequestAfter
      = 0 + min ((2 : Int) ^ 6) 32 := by
  have h := c7_backoff_growth 0 ⟨[], 0, 0⟩
  exact ⟨h.1, h.2.2 6 (by norm_num)⟩

/-- The early-return gate of sheets_commit_changes. -/
theorem commit_gate (now : Int) (f : Except Unit (List ValueRange)) (w : Bool)
    (s : SheetsState) (h : now ≤ s.nextRequestAfter ∨ s.queued = []) :
    sheets_commit_changes now f w s = (s, none) := by
  rw [sheets_commit_changes.eq_def, if_pos h]

/-- The failed-read branch of sheets_commit_changes. -/
theorem commit_fetch_error (now : Int) (w : Bool) (s : SheetsState)
    (h : ¬(now ≤ s.nextRequestAfter ∨ s.queued = [])) :
    sheets_commit_changes now (.error ()) w s =
      (sheets_increment_retry_delay now s, none) := by
  rw [sheets_commit_changes, if_neg h]

/-- Claim C8: when the batched read fails, the tick increments the retry
counter by one, pushes notBefore to now plus the capped exponential delay,
submits nothing, and leaves the queue exactly as it was. -/
theorem c8_read_failure_backoff (now : Int) (w : Bool) (s : SheetsState)
    (h1 : s.nextRequestAfter < now) (h2 : s.queued ≠ []) :
    sheets_commit_changes now (.error ()) w s =
      ({ queued := s.queued
         nextRequestAfter := now + min ((2 : Int) ^ (s.retries + 1)) 32
         retries := s.retries + 1 }, none) := by
  have hgate : ¬(now ≤ s.nextRequestAfter ∨ s.queued = []) := by
    push_neg
    exact ⟨h1, h2⟩
  rw [sheets_commit_changes, if_neg hgate]
  show (sheets_increment_retry_delay now s, none) = _
  rw [sheets_increment_retry_delay, two_pow_min_five]

/-- Witness for C8: a queue with one request, retries 0, notBefore 0 and
now 1; the read fails, retries becomes 1 and notBefore becomes now + 2. -/
theorem c8_witness :
    sheets_commit_changes 1 (.error ()) true
        ⟨[⟨("Bob".toList), ("ff0000".toList)⟩], 0, 0⟩ =
      ({ queued := [⟨("Bob".toList), ("ff0000".toList)⟩]
         nextRequestAfter := 1 + min ((2 : Int) ^ (0 + 1)) 32
         retries := 0 + 1 }, none) ∧
    (1 + min ((2 : Int) ^ (0 + 1)) 32 : Int) = 1 + 2 := by
  refine ⟨?_, by norm_num⟩
  exact c8_read_failure_backoff 1 true ⟨[⟨("Bob".toList), ("ff0000".toList)⟩], 0, 0⟩
    (by decide) (by decide)

/-- Claim C4 counterexample: at the instant now = notBefore, with a
non-empty queue and a read outcome prepared to fail, the tick returns
immediately with the state unchanged: no remote read is attempted (a read
attempt would have bumped retries to 1), contradicting the claim that the
attempt is permitted when now ≥ notBefore. -/
theorem c4_counterexample :
    sheets_commit_changes 0 (.error ()) true
        ⟨[⟨("Bob".toList), ("ff0000".toList)⟩], 0, 0⟩ =
      (⟨[⟨("Bob".toList), ("ff0000".toList)⟩], 0, 0⟩, none) := by decide

/-- Claim C4 amended: the tick returns immediately, with no state change
and nothing submitted, whenever now ≤ notBefore or the queue is empty;
the remote read is attempted (observable as the retry bump on a failing
read) exactly when now > notBefore, strictly, and the queue is
non-empty. -/
theorem c4_gate_strict (now : Int) (f : Except Unit (List ValueRange)) (w : Bool)
    (s : SheetsState) :
    ((now ≤ s.nextRequestAfter ∨ s.queued = []) →
      sheets_commit_changes now f w s = (s, none)) ∧
    ((sheets_commit_changes now (.error ()) w s).1.retries = s.retries + 1 ↔
      (s.nextRequestAfter < now ∧ s.queued ≠ [])) := by
  refine ⟨commit_gate now f w s, ?_⟩
  by_cases h : now ≤ s.nextRequestAfter ∨ s.queued = []
  · rw [commit_gate now (.error ()) w s h]
    constructor
    · intro hr
      have hr2 : s.retries = s.retries + 1 := hr
      omega
    · intro hc
      exfalso
      rcases h with h | h
      · exact absurd h (not_le.mpr hc.1)
      · exact hc.2 h
  · rw [commit_fetch_error now w s h]
    push_neg at h
    constructor
    · intro _
      exact h
    · intro _
      rfl

/-- Witness for the amended C4 at a concrete state with now < notBefore:
the tick returns immediately and changes nothing. -/
theorem c4_witness :
    sheets_commit_changes 5 (.ok []) false
        ⟨[⟨("Ann".toList), ("00ff00".toList)⟩], 7, 2⟩ =
      (⟨[⟨("Ann".toList), ("00ff00".toList)⟩], 7, 2⟩, none) :=
  (c4_gate_strict 5 (.ok []) false ⟨[⟨("Ann".toList), ("00ff00".toList)⟩], 7, 2⟩).1
    (Or.inl (by decide))

/-- The searched-with-exception branch of sheets_commit_changes: any
exception while scanning (a failed anchor parse included) makes the tick
return with the state unchanged and nothing submitted. -/
theorem commit_search_error (now : Int) (w : Bool) (s : SheetsState)
    (vrs : List ValueRange)
    (hgate : ¬(now ≤ s.nextRequestAfter ∨ s.queued = []))
    (herr : processRanges s.queued vrs [] = .error ()) :
    sheets_commit_changes now (.ok vrs) w s = (s, none) := by
  rw [sheets_commit_changes, if_neg hgate, herr]

/-- The successful-search branch of sheets_commit_changes. -/
theorem commit_search_ok (now : Int) (w : Bool) (s : SheetsState)
    (vrs : List ValueRange) (reqs : List Directive)
    (hgate : ¬(now ≤ s.nextRequestAfter ∨ s.queued = []))
    (hok : processRanges s.queued vrs [] = .ok reqs) :
    sheets_commit_changes now (.ok vrs) w s =
      (if reqs.isEmpty then (sheets_clear_retry_delay now { s with queued := [] }, none)
       else if w then (sheets_clear_retry_delay now { s with queued := [] }, some reqs)
       else (sheets_increment_retry_delay now { s with queued := [] }, some reqs)) := by
  rw [sheets_commit_changes, if_neg hgate, hok]

/-- Claim C3 counterexample: a flush whose first range has a malformed
start anchor submits nothing and leaves the queue undrained, even though
the same queue against the second range alone yields a directive for Bob;
the remaining range is NOT scanned, contrary to the claim. -/
theorem c3_counterexample :
    (sheets_commit_changes 1
        (.ok [⟨("???".toList), [[("Bob".toList)]]⟩,
              ⟨("A1:B5".toList), [[("Bob".toList)]]⟩])
        true ⟨[⟨("Bob".toList), ("ff0000".toList)⟩], 0, 0⟩ =
      (⟨[⟨("Bob".toList), ("ff0000".toList)⟩], 0, 0⟩, none)) ∧
    (sheets_commit_changes 1 (.ok [⟨("A1:B5".toList), [[("Bob".toList)]]⟩])
        true ⟨[⟨("Bob".toList), ("ff0000".toList)⟩], 0, 0⟩ =
      (⟨[], 1, 0⟩, some [⟨0, 1, 0, 1, 0, 255, 0, 0⟩])) := ⟨by decide, by decide⟩

/-- Claim C3 amended: when parsing any scanned range's start anchor fails,
the WHOLE tick is abandoned, not just that range: the remaining ranges are
not scanned, nothing is submitted, the queue is left undrained and the
backoff state is unchanged; the flush loop itself does not crash (the tick
returns normally).  A range with data whose anchor fails to parse does
raise the scanning exception. -/
theorem c3_parse_failure_aborts_tick (now : Int) (w : Bool) (s : SheetsState)
    (vrs : List ValueRange)
    (h1 : s.nextRequestAfter < now) (h2 : s.queued ≠ [])
    (h3 : processRanges s.queued vrs [] = .error ()) :
    sheets_commit_changes now (.ok vrs) w s = (s, none) ∧
    ∀ (vr : ValueRange) (rest : List ValueRange) (e : A1Error),
      vr.values ≠ [] → parse_a1_coords (takeBeforeColon vr.range) = .error e →
      processRanges s.queued (vr :: rest) [] = .error () := by
  constructor
  · apply commit_search_error now w s vrs ?_ h3
    push_neg
    exact ⟨h1, h2⟩
  · intro vr rest e hv hp
    have hve : vr.values.isEmpty = false := by
      cases hvv : vr.values with
      | nil => exact absurd hvv hv
      | cons a t => rfl
    simp [processRanges, hve, hp]

/-- Witness for the amended C3: one configured range with data but a
malformed anchor; the tick returns with the queue and backoff unchanged. -/
theorem c3_witness :
    sheets_commit_changes 1 (.ok [⟨("??".toList), [[("Zed".toList)]]⟩]) true
        ⟨[⟨("Zed".toList), ("00ff00".toList)⟩], 0, 0⟩ =
      (⟨[⟨("Zed".toList), ("00ff00".toList)⟩], 0, 0⟩, none) :=
  (c3_parse_failure_aborts_tick 1 true ⟨[⟨("Zed".toList), ("00ff00".toList)⟩], 0, 0⟩
      [⟨("??".toList), [[("Zed".toList)]]⟩] (by decide) (by decide) (by decide)).1

theorem scanRow_sheetId (xo yo : Int) (y : Nat) (pair : ChangeReq) :
    ∀ (row : List (List Char)) (x : Nat) (acc out : List Directive),
      scanRow xo yo y pair row x acc = .ok out →
      (∀ d ∈ acc, d.sheetId = 0) → ∀ d ∈ out, d.sheetId = 0 := by
  intro row
  induction row with
  | nil =>
    intro x acc out h hacc
    rw [scanRow] at h
    cases h
    exact hacc
  | cons v rest ih =>
    intro x acc out h hacc
    rw [scanRow] at h
    split at h
    · rcases hfh : fromHex3 pair.colour with _ | ⟨r, g, b⟩
      · rw [hfh] at h
        cases h
      · rw [hfh] at h
        refine ih (x + 1) (acc ++ [mkDirective xo yo x y r g b]) out h ?_
        intro d hd
        rcases List.mem_append.mp hd with hd | hd
        · exact hacc d hd
        · rw [List.mem_singleton.mp hd]
          rfl
    · exact ih (x + 1) acc out h hacc

theorem scanRows_sheetId (xo yo : Int) (pair : ChangeReq) :
    ∀ (rows : List (List (List Char))) (y : Nat) (acc out : List Directive),
      scanRows xo yo pair rows y acc = .ok out →
      (∀ d ∈ acc, d.sheetId = 0) → ∀ d ∈ out, d.sheetId = 0 := by
  intro rows
  induction rows with
  | nil =>
    intro y acc out h hacc
    rw [scanRows] at h
    cases h
    exact hacc
  | cons row rest ih =>
    intro y acc out h hacc
    rw [scanRows] at h
    rcases hsr : scanRow xo yo y pair row 0 acc with e | acc2
    · rw [hsr] at h
      cases h
    · rw [hsr] at h
      exact ih (y + 1) acc2 out h (scanRow_sheetId xo yo y pair row 0 acc acc2 hsr hacc)

theorem scanQueue_sheetId (xo yo : Int) :
    ∀ (queued : List ChangeReq) (rows : List (List (List Char))) (acc out : List Directive),
      scanQueue xo yo queued rows acc = .ok out →
      (∀ d ∈ acc, d.sheetId = 0) → ∀ d ∈ out, d.sheetId = 0 := by
  intro queued
  induction queued with
  | nil =>
    intro rows acc out h hacc
    rw [scanQueue] at h
    cases h
    exact hacc
  | cons pair rest ih =>
    intro rows acc out h hacc
    rw [scanQueue] at h
    rcases hsr : scanRows xo yo pair rows 0 acc with e | acc2
    · rw [hsr] at h
      cases h
    · rw [hsr] at h
      exact ih rows acc2 out h (scanRows_sheetId xo yo pair rows 0 acc acc2 hsr hacc)

theorem processRanges_sheetId (queued : List ChangeReq) :
    ∀ (vrs : List ValueRange) (acc out : List Directive),
      processRanges queued vrs acc = .ok out →
      (∀ d ∈ acc, d.sheetId = 0) → ∀ d ∈ out, d.sheetId = 0 := by
  intro vrs
  induction vrs with
  | nil =>
    intro acc out h hacc
    rw [processRanges] at h
    cases h
    exact hacc
  | cons vr rest ih =>
    intro acc out h hacc
    rw [processRanges] at h
    split at h
    · exact ih acc out h hacc
    · split at h
      · cases h
      · next xo yo _ =>
        split at h
        · cases h
        · next acc2 hsq =>
          exact ih acc2 out h (scanQueue_sheetId xo yo queued vr.values acc acc2 hsq hacc)

/-- Claim C5: every directive a flush submits carries sheetId 0, whatever
sheet-name prefix the configured ranges had: the target sheet is
hard-coded. -/
theorem c5_sheet_id_always_zero (now : Int) (fetched : Except Unit (List ValueRange))
    (w : Bool) (s : SheetsState) (ds : List Directive)
    (h : (sheets_commit_changes now fetched w s).2 = some ds) :
    ∀ d ∈ ds, d.sheetId = 0 := by
  by_cases hgate : now ≤ s.nextRequestAfter ∨ s.queued = []
  · rw [commit_gate now fetched w s hgate] at h
    cases h
  · cases fetched with
    | error e =>
      obtain ⟨⟩ := e
      rw [commit_fetch_error now w s hgate] at h
      cases h
    | ok vrs =>
      rcases hpr : processRanges s.queued vrs [] with e | reqs
      · obtain ⟨⟩ := e
        rw [commit_search_error now w s vrs hgate hpr] at h
        cases h
      · rw [commit_search_ok now w s vrs reqs hgate hpr] at h
        split at h
        · cases h
        · have hds : reqs = ds := by
            cases w <;> simpa using h
          subst hds
          exact processRanges_sheetId s.queued vrs [] reqs hpr
            (fun d hd => absurd hd (List.not_mem_nil d))

/-- Witness for C5: a range on another sheet (Sheet2!H13:AC139) produces a
directive at the offset coordinates of that range but with sheetId 0. -/
theorem c5_witness :
    (sheets_commit_changes 1
        (.ok [⟨("Sheet2!H13:AC139".toList), [[("Zed".toList)]]⟩]) true
        ⟨[⟨("Zed".toList), ("ff0000".toList)⟩], 0, 0⟩).2 =
      some [⟨7, 8, 12, 13, 0, 255, 0, 0⟩] ∧
    (⟨7, 8, 12, 13, 0, 255, 0, 0⟩ : Directive).sheetId = 0 := by
  refine ⟨by decide, ?_⟩
  exact c5_sheet_id_always_zero 1
    (.ok [⟨("Sheet2!H13:AC139".toList), [[("Zed".toList)]]⟩]) true
    ⟨[⟨("Zed".toList), ("ff0000".toList)⟩], 0, 0⟩ [⟨7, 8, 12, 13, 0, 255, 0, 0⟩]
    (by decide) ⟨7, 8, 12, 13, 0, 255, 0, 0⟩ (List.mem_singleton.mpr rfl)

/-- processRanges on a single range with data whose anchor parses and
whose scan succeeds. -/
theorem processRanges_single (queued : List ChangeReq) (vr : ValueRange)
    (xo yo : Int) (out : List Directive)
    (hne : vr.values.isEmpty = false)
    (hp : parse_a1_coords (takeBeforeColon vr.range) = .ok (xo, yo))
    (hq : scanQueue xo yo queued vr.values [] = .ok out) :
    processRanges queued [vr] [] = .ok out := by
  rw [processRanges, if_neg (by simp [hne]), hp]
  show (match scanQueue xo yo queued vr.values [] with
        | .error e => Except.error e
        | .ok acc2 => processRanges queued [] acc2) = .ok out
  rw [hq]
  show processRanges queued [] out = .ok out
  rw [processRanges]

/-- Claim C1 counterexample: the spec scenario queues a request named
Alice while cell (0,2) of range A1:B5 holds Alice Smith.  The claimed
symmetric match would produce a directive, but the code only tests
whether the CELL text is a substring of the NAME, which fails here: the
flush drains the queue, builds nothing and submits nothing. -/
theorem c1_counterexample :
    sheets_commit_changes 1
        (.ok [⟨("A1:B5".toList), [[[]], [[]], [("Alice Smith".toList)]]⟩]) true
        ⟨[⟨("Alice".toList), ("00ff00".toList)⟩], 0, 0⟩ =
      (⟨[], 1, 0⟩, none) := by decide

/-- Claim C1 amended: a drained request matches a fetched cell iff the
cell text is nonempty and, case-insensitively, the CELL text is a
substring of the request's NAME (one direction only, not symmetric).  In
particular a request named Alice Smith matches a cell containing Alice,
and that flush produces the single directive for rectangle columns 0-1,
rows 2-3 with background fractions (0, 1, 0). -/
theorem c1_match_one_directional (name value colour : List Char) (r g b : Nat)
    (hc : fromHex3 colour = some (r, g, b)) :
    ((sheets_commit_changes 1 (.ok [⟨("A1:B5".toList), [[value]]⟩]) true
        ⟨[⟨name, colour⟩], 0, 0⟩).2 =
      if value ≠ [] ∧ substrAt (lowerStr value) (lowerStr name) = true
      then some [mkDirective 0 0 0 0 r g b] else none) ∧
    (sheets_commit_changes 1
        (.ok [⟨("A1:B5".toList), [[[]], [[]], [("Alice".toList)]]⟩]) true
        ⟨[⟨("Alice Smith".toList), ("00ff00".toList)⟩], 0, 0⟩ =
      (⟨[], 1, 0⟩, some [⟨0, 1, 2, 3, 0, 0, 255, 0⟩])) ∧
    channelFrac 0 = 0 ∧ channelFrac 255 = 1 := by
  refine ⟨?_, by decide, by norm_num [channelFrac], by norm_num [channelFrac]⟩
  have hgate : ¬((1 : Int) ≤ (0 : Int) ∨ ([⟨name, colour⟩] : List ChangeReq) = []) := by
    push_neg
    exact ⟨by norm_num, by simp⟩
  have hparse : parse_a1_coords (takeBeforeColon ("A1:B5".toList)) = .ok (0, 0) := by
    decide
  by_cases hm : value ≠ [] ∧ substrAt (lowerStr value) (lowerStr name) = true
  · have hve : value.isEmpty = false := by
      rcases hm with ⟨h1, _⟩
      cases value with
      | nil => exact absurd rfl h1
      | cons a t => rfl
    have hcm : cellMatches value name = true := by
      simp [cellMatches, hve, hm.2]
    have hrow : scanRow 0 0 0 ⟨name, colour⟩ [value] 0 []
        = .ok [mkDirective 0 0 0 0 r g b] := by
      simp [scanRow, hcm, hc]
    have hq : scanQueue 0 0 [⟨name, colour⟩] [[value]] []
        = .ok [mkDirective 0 0 0 0 r g b] := by
      simp [scanQueue, scanRows, hrow]
    have hpr : processRanges [⟨name, colour⟩] [⟨("A1:B5".toList), [[value]]⟩] []
        = .ok [mkDirective 0 0 0 0 r g b] :=
      processRanges_single _ _ 0 0 _ (by simp) hparse hq
    rw [commit_search_ok 1 true ⟨[⟨name, colour⟩], 0, 0⟩ _ _ hgate hpr]
    simp [hm]
  · have hcm : cellMatches value name = false := by
      cases hcmv : cellMatches value name
      · rfl
      · exfalso
        apply hm
        simp only [cellMatches, Bool.and_eq_true, Bool.not_eq_true'] at hcmv
        refine ⟨?_, hcmv.2⟩
        intro hveq
        rw [hveq] at hcmv
        simp at hcmv
    have hrow : scanRow 0 0 0 ⟨name, colour⟩ [value] 0 [] = .ok [] := by
      simp [scanRow, hcm]
    have hq : scanQueue 0 0 [⟨name, colour⟩] [[value]] [] = .ok [] := by
      simp [scanQueue, scanRows, hrow]
    have hpr : processRanges [⟨name, colour⟩] [⟨("A1:B5".toList), [[value]]⟩] []
        = .ok [] :=
      processRanges_single _ _ 0 0 _ (by simp) hparse hq
    rw [commit_search_ok 1 true ⟨[⟨name, colour⟩], 0, 0⟩ _ _ hgate hpr]
    simp [hm]

/-- Witness for the amended C1: request Alice Smith against a single cell
Alice; the match condition holds and the one directive is submitted. -/
theorem c1_witness :
    (sheets_commit_changes 1 (.ok [⟨("A1:B5".toList), [[("Alice".toList)]]⟩]) true
        ⟨[⟨("Alice Smith".toList), ("00ff00".toList)⟩], 0, 0⟩).2 =
      (if ("Alice".toList) ≠ [] ∧
          substrAt (lowerStr ("Alice".toList)) (lowerStr ("Alice Smith".toList)) = true
       then some [mkDirective 0 0 0 0 0 255 0] else none) :=
  (c1_match_one_directional ("Alice Smith".toList) ("Alice".toList) ("00ff00".toList)
    0 255 0 (by decide)).1

/-- Claim C2 counterexample: with the two Bob requests queued in order,
the flush submits TWO directives for Bob's cell, not exactly one: one per
drained request, in queue order. -/
theorem c2_counterexample :
    ((sheets_commit_changes 1 (.ok [⟨("A1:B5".toList), [[("Bob".toList)]]⟩]) true
        ⟨[⟨("Bob".toList), ("00ff00".toList)⟩,
          ⟨("Bob".toList), ("ff0000".toList)⟩], 0, 0⟩).2.getD []).length = 2 := by
  decide

/-- Claim C2 amended: the flush submits one directive per drained request
per matching cell: for the two Bob requests it submits exactly two
directives for Bob's cell, in queue order, first 00ff00 then ff0000; the
later ff0000 directive is the last one in the submitted batch, so it is
what the cell ends up with when the batch is applied in order. -/
theorem c2_duplicate_requests_two_directives :
    sheets_commit_changes 1 (.ok [⟨("A1:B5".toList), [[("Bob".toList)]]⟩]) true
        ⟨[⟨("Bob".toList), ("00ff00".toList)⟩,
          ⟨("Bob".toList), ("ff0000".toList)⟩], 0, 0⟩ =
      (⟨[], 1, 0⟩, some [⟨0, 1, 0, 1, 0, 0, 255, 0⟩, ⟨0, 1, 0, 1, 0, 255, 0, 0⟩]) ∧
    ([⟨0, 1, 0, 1, 0, 0, 255, 0⟩, (⟨0, 1, 0, 1, 0, 255, 0, 0⟩ : Directive)].getLast?
      = some ⟨0, 1, 0, 1, 0, 255, 0, 0⟩) := ⟨by decide, by decide⟩
